import Mathlib

/-!
Verification of the gogo logging pool (`logger.go`), the component generator
validation logic (`cmd/commands/component.go`), and the hook-stage runner
(specified behaviour of `pkgs/hooks`, whose source is not part of this tree).

The heap of `*AppLogger` objects is modelled explicitly: an address (`Nat`,
index into a list of records) stands for a Go pointer, so pointer identity of
handles is address equality.  The `sync.Pool` free list is a list of stored
values; `sync.Pool.Get` takes the most recently `Put` value or, when the list
is empty, calls the pool's constructor closure (`pool.New`) when one is set and
yields a nil interface otherwise.  External library functions (`path.Join`,
`path.Clean`, opening the sink, `named.ToCamelCase`, template execution,
`os.Getwd`) are parameters of the embedding.
-/

/-- The observable per-handle state of an `AppLogger`: its `requestID` field
and the tag state set by `SetTags`. -/
structure LoggerRec where
  requestID : String
  tags : List String
deriving DecidableEq

/-- A value stored in the free list (anything passed to `Reuse` as a `Logger`):
either a pointer to an `AppLogger` on the heap, or some other implementation
of the `Logger` interface. -/
inductive LoggerVal where
  | appLogger (addr : Nat)
  | otherImpl
deriving DecidableEq

/-- The state of one `AppLogger` together with the heap of handles sharing its
writer.  `heap` holds every `*AppLogger` object (address = index), `self` is
the receiver's own address, `freeList` is the `sync.Pool` content, `hasNew`
records whether `pool.New` was set (true for loggers built by `NewAppLogger`),
and `sink` is the resolved output destination shared by all handles. -/
structure AppLoggerState where
  sink : String
  heap : List LoggerRec
  self : Nat
  freeList : List LoggerVal
  hasNew : Bool
deriving DecidableEq

/-- Zero value of `AppLogger`'s observable fields, as produced by
`&AppLogger{Logger: lg.New()}`. -/
def emptyLoggerRec : LoggerRec :=
  { requestID := "", tags := [] }

/-- Result of `AppLogger.New`: the address of the returned `*AppLogger`, or
the fallback `lg.(Logger).New(requestID)` on a non-`*AppLogger` pool value, or
the run-time failure of asserting `lg.(Logger)` on a nil interface (empty pool
with no constructor). -/
inductive NewResult where
  | ok (addr : Nat)
  | fallbackNew (v : LoggerVal)
  | nilAssertionFailure
deriving DecidableEq

/-- Whether `AppLogger.New` returned an `*AppLogger` handle. -/
def newResultIsOk : NewResult → Bool
  | NewResult.ok _ => true
  | _ => false

/-- The address returned by `AppLogger.New` (0 for non-`ok` results). -/
def newResultAddr : NewResult → Nat
  | NewResult.ok a => a
  | _ => 0

/-- `nlog.requestID = requestID; nlog.SetTags(requestID)` at address `a`. -/
def stampAt (heap : List LoggerRec) (a : Nat) (rid : String) : List LoggerRec :=
  heap.set a { requestID := rid, tags := [rid] }

/-- Embedding of `AppLogger.New` (src/logger.go lines 71-90): fast path when
the cached `requestID` matches, otherwise `pool.Get` (most recent free-list
entry, or the constructor closure when the list is empty), stamped with the
id.  Returns the post state and the result. -/
def appLoggerNew (s : AppLoggerState) (requestID : String) : AppLoggerState × NewResult :=
  if (s.heap.getD s.self emptyLoggerRec).requestID = requestID then
    (s, NewResult.ok s.self)
  else
    match s.freeList with
    | LoggerVal.appLogger a :: rest =>
        ({ s with freeList := rest, heap := stampAt s.heap a requestID }, NewResult.ok a)
    | LoggerVal.otherImpl :: rest =>
        ({ s with freeList := rest }, NewResult.fallbackNew LoggerVal.otherImpl)
    | [] =>
        if s.hasNew then
          ({ s with heap := stampAt (s.heap ++ [emptyLoggerRec]) s.heap.length requestID },
           NewResult.ok s.heap.length)
        else
          (s, NewResult.nilAssertionFailure)

/-- Embedding of `AppLogger.RequestID` (src/logger.go lines 93-95) for the
handle at address `a`. -/
def appLoggerRequestID (s : AppLoggerState) (a : Nat) : String :=
  (s.heap.getD a emptyLoggerRec).requestID

/-- Embedding of `AppLogger.Reuse` (src/logger.go lines 98-100):
`pool.Put(lg)`. -/
def appLoggerReuse (s : AppLoggerState) (v : LoggerVal) : AppLoggerState :=
  { s with freeList := v :: s.freeList }

/-- Result of `NewAppLogger`: its Go signature returns only `*AppLogger`
(there is no error return); the two non-`ok` cases are the run-time aborts —
indexing `output[0]` on an empty string, and `log.Panicf` when `logger.New`
cannot open the resolved sink. -/
inductive ConstructResult (α : Type) where
  | ok (a : α)
  | indexOutOfRange
  | loggerNewAbort (output : String)
deriving DecidableEq

/-- Whether construction returned a value. -/
def constructIsOk {α : Type} : ConstructResult α → Bool
  | ConstructResult.ok _ => true
  | _ => false

/-- The `*AppLogger` built by `NewAppLogger` on success: one root handle with
zeroed fields, an empty pool whose constructor closure is set, and the
resolved sink shared by all handles the closure will produce. -/
def initAppLogger (sink : String) : AppLoggerState :=
  { sink := sink, heap := [emptyLoggerRec], self := 0, freeList := [], hasNew := true }

/-- Embedding of the sink-resolution switch of `NewAppLogger` (src/logger.go
lines 25-32): the four recognized names and absolute paths pass through
unchanged; the empty string makes `output[0]` abort (`none`); every other
value is replaced by `path.Join(output, filename + ".log")`.  `pj` is the
external `path.Join`. -/
def resolveOutput (pj : String → String → String) (output filename : String) : Option String :=
  if output = "stdout" ∨ output = "stderr" ∨ output = "null" ∨ output = "nil" then
    some output
  else if output = "" then
    none
  else if output.front = '/' then
    some output
  else
    some (pj output (filename ++ ".log"))

/-- Embedding of `NewAppLogger` (src/logger.go lines 24-51).  `canOpen` is the
external fact whether `logger.New` can open a given sink; on failure the code
calls `log.Panicf` instead of returning. -/
def newAppLogger (canOpen : String → Bool) (pj : String → String → String)
    (output filename : String) : ConstructResult AppLoggerState :=
  match resolveOutput pj output filename with
  | none => ConstructResult.indexOutOfRange
  | some r =>
      if canOpen r then ConstructResult.ok (initAppLogger r)
      else ConstructResult.loggerNewAbort r

/-- The value a context holds under `ctxLoggerKey`: either something that
satisfies the `Logger` interface assertion, or some other value. -/
inductive CtxValue where
  | isLogger (v : LoggerVal)
  | notLogger
deriving DecidableEq

/-- What `NewContextLogger` hands back: the attached `Logger`, or a freshly
constructed default handle. -/
inductive CtxLogger where
  | attached (v : LoggerVal)
  | fresh (s : AppLoggerState)
deriving DecidableEq

/-- A request, reduced to the value its context stores under `ctxLoggerKey`
(`none` models a context with nothing stored under the key). -/
structure HttpRequest where
  ctxVal : Option CtxValue

/-- Embedding of `NewContextLogger` (src/logger.go lines 61-68): the type
assertion `ctx.Value(ctxLoggerKey).(Logger)` succeeds only on a stored
`Logger`; otherwise the result is `NewAppLogger("stderr", "")`. -/
def newContextLogger (canOpen : String → Bool) (pj : String → String → String)
    (ctxVal : Option CtxValue) : ConstructResult CtxLogger :=
  match ctxVal with
  | some (CtxValue.isLogger v) => ConstructResult.ok (CtxLogger.attached v)
  | _ =>
      match newAppLogger canOpen pj "stderr" "" with
      | ConstructResult.ok s => ConstructResult.ok (CtxLogger.fresh s)
      | ConstructResult.indexOutOfRange => ConstructResult.indexOutOfRange
      | ConstructResult.loggerNewAbort r => ConstructResult.loggerNewAbort r

/-- Embedding of `NewRequestLogger` (src/logger.go lines 56-58):
`NewContextLogger(r.Context())`. -/
def newRequestLogger (canOpen : String → Bool) (pj : String → String → String)
    (r : HttpRequest) : ConstructResult CtxLogger :=
  newContextLogger canOpen pj r.ctxVal

/-- Modelled from the spec: `hooks.NamedHook` of `pkgs/hooks`, whose source is
not in this tree (only its uses in the server test appear).  Spec: "Named
Hook: {name: string, apply: (response, request) -> bool}".  The mutable
response/request pair is the state `σ`; `Apply` returns the mutated state and
the continue flag. -/
structure NamedHook (σ : Type) where
  Name : String
  Apply : σ → σ × Bool

/-- State reached after applying every hook of a list in order, ignoring the
returned flags. -/
def stageFold {σ : Type} (hs : List (NamedHook σ)) (s : σ) : σ :=
  match hs with
  | [] => s
  | h :: rest => stageFold rest (h.Apply s).1

/-- Modelled from the spec: the hook-stage runner of `pkgs/hooks`, whose
source is not in this tree.  Spec: "Executes each Named Hook in registration
order ... If a hook returns false, stop iterating immediately and report false
to the caller (stage aborted).  If all hooks return true (or the stage has
zero hooks), report true." -/
def runStage {σ : Type} (hs : List (NamedHook σ)) (s : σ) : σ × Bool :=
  match hs with
  | [] => (s, true)
  | h :: rest =>
      let r := h.Apply s
      if r.2 then runStage rest r.1 else (r.1, false)

/-- Test hook recording its name and returning true. -/
def tHookTrue (n : String) : NamedHook (List String) :=
  { Name := n, Apply := fun t => (t ++ [n], true) }

/-- Test hook recording its name and returning false. -/
def tHookFalse (n : String) : NamedHook (List String) :=
  { Name := n, Apply := fun t => (t ++ [n], false) }

/-- Go `strings.TrimSuffix`. -/
def goTrimSuffix (s suf : String) : String :=
  if suf.data.isSuffixOf s.data then s.dropRight suf.length else s

/-- Occurrence check on character lists: `pat` occurs somewhere in `l`. -/
def charsContain : List Char → List Char → Bool
  | [], pat => pat.isEmpty
  | c :: t, pat => pat.isPrefixOf (c :: t) || charsContain t pat

/-- Go `strings.Contains`. -/
def goContains (s sub : String) : Bool :=
  charsContain s.data sub.data

/-- Go `path.Join` (src uses it with `path.Clean` parametrised as `pc`): all
elements joined with "/" starting from the first non-empty one, then cleaned;
all-empty input gives "". -/
def goPathJoin (pc : String → String) (elems : List String) : String :=
  match elems.dropWhile (fun e => e = "") with
  | [] => ""
  | rest => pc (String.intercalate "/" rest)

/-- `ComponentType` enum of src/cmd/commands/component.go lines 12-18: a Go
`int`; `_comType = 0`, controller 1, middleware 2, model 3, `comType_ = 4`. -/
def comTypeLowerBound : Int := 0

/-- `ComTypeController`. -/
def ComTypeController : Int := 1

/-- `ComTypeMiddleware`. -/
def ComTypeMiddleware : Int := 2

/-- `ComTypeModel`. -/
def ComTypeModel : Int := 3

/-- `comType_`, the exclusive upper bound. -/
def comTypeUpperBound : Int := 4

/-- Embedding of `ComponentType.Valid` (component.go lines 32-34):
`ct > _comType && ct < comType_`. -/
def componentTypeValid (ct : Int) : Bool :=
  decide (comTypeLowerBound < ct) && decide (ct < comTypeUpperBound)

/-- The `comDirs` map (component.go lines 23-27). -/
def comDirs (ct : Int) : Option (List String) :=
  if ct = ComTypeController then some ["app", "controllers"]
  else if ct = ComTypeMiddleware then some ["app", "middlewares"]
  else if ct = ComTypeModel then some ["app", "models"]
  else none

/-- Embedding of `ComponentType.String` (component.go lines 48-62). -/
def componentTypeName (ct : Int) : String :=
  if ct = ComTypeController then "controller"
  else if ct = ComTypeMiddleware then "middleware"
  else if ct = ComTypeModel then "model"
  else ""

/-- Embedding of `ComponentType.Root` (component.go lines 36-46): trim a "/"
then a "/gogo" suffix off the working directory, then
`path.Clean(path.Join(pwd, "gogo", path.Join(dirs...)))`.  `pc` is the
external `path.Clean`. -/
def componentTypeRoot (pc : String → String) (ct : Int) (pwd : String) : String :=
  match comDirs ct with
  | none => pwd
  | some dirs =>
      let pwd1 := goTrimSuffix pwd "/"
      let pwd2 := goTrimSuffix pwd1 "/gogo"
      pc (goPathJoin pc [pwd2, "gogo", goPathJoin pc dirs])

/-- The errors `newComponent` can return: the two sentinel errors of the
package and any error bubbled up from the OS / template engine. -/
inductive CompErr where
  | errComponentType
  | errInvalidRoot
  | goError (e : String)
deriving DecidableEq

/-- Outcome of `newComponent`: the files successfully opened for writing (in
order), and the error returned to the caller (`none` on success). -/
structure ComponentResult where
  written : List String
  result : Option CompErr
deriving DecidableEq

/-- External collaborators of `newComponent`: `os.Getwd`, `path.Clean`,
`os.OpenFile` (`some` an error message on failure), template lookup+execute
by template name, and the `toFilename` derivation (which uses the external
`named.ToCamelCase`). -/
structure ComponentEnv where
  getwd : Except String String
  pathClean : String → String
  openFile : String → Option String
  tmplExec : String → Option String
  toFile : String → String

/-- Embedding of `_Component.newComponent` (component.go lines 172-226):
validity check, working-directory lookup, root containment check, then the
two open/execute pairs for `xxx.go` and `xxx_test.go`. -/
def newComponent (env : ComponentEnv) (com : Int) (name : String) : ComponentResult :=
  if componentTypeValid com = false then
    { written := [], result := some CompErr.errComponentType }
  else
    match env.getwd with
    | Except.error e => { written := [], result := some (CompErr.goError e) }
    | Except.ok pwd =>
        let comRoot := componentTypeRoot env.pathClean com pwd
        if goContains comRoot "/gogo/" = false then
          { written := [], result := some CompErr.errInvalidRoot }
        else
          let f1 := goPathJoin env.pathClean [comRoot, env.toFile name]
          match env.openFile f1 with
          | some e => { written := [], result := some (CompErr.goError e) }
          | none =>
              match env.tmplExec ("template_" ++ componentTypeName com) with
              | some e => { written := [f1], result := some (CompErr.goError e) }
              | none =>
                  let f2 := goPathJoin env.pathClean [comRoot, env.toFile (name ++ "_test")]
                  match env.openFile f2 with
                  | some e => { written := [f1], result := some (CompErr.goError e) }
                  | none =>
                      match env.tmplExec ("template_" ++ componentTypeName com ++ "_test") with
                      | some e => { written := [f1, f2], result := some (CompErr.goError e) }
                      | none => { written := [f1, f2], result := none }

/-- A concrete `path.Join` for witnesses. -/
def pj0 : String → String → String :=
  fun a b => if a = "" then b else a ++ "/" ++ b

/-- A sink predicate that opens everything, for witnesses. -/
def canOpenAll : String → Bool :=
  fun _ => true

/-- A sink predicate that opens nothing, for witnesses. -/
def canOpenNone : String → Bool :=
  fun _ => false

/-- A component environment for witnesses: a working directory inside a gogo
project, no OS or template failures. -/
def envInProject : ComponentEnv :=
  { getwd := Except.ok "/home/me/proj", pathClean := fun s => s,
    openFile := fun _ => none, tmplExec := fun _ => none,
    toFile := fun n => n ++ ".go" }

/-- A component environment for witnesses whose working directory resolves to
a component root without "/gogo/". -/
def envOutsideProject : ComponentEnv :=
  { getwd := Except.ok "", pathClean := fun s => s,
    openFile := fun _ => none, tmplExec := fun _ => none,
    toFile := fun n => n ++ ".go" }

theorem getD_set_same (l : List LoggerRec) (a : Nat) (x d : LoggerRec)
    (h : a < l.length) : (l.set a x).getD a d = x := by
  induction l generalizing a with
  | nil => simp at h
  | cons y ys ih =>
    cases a with
    | zero => rfl
    | succ n =>
      simp only [List.set_cons_succ, List.getD_cons_succ]
      exact ih n (by simpa using h)

/-- C1: when the receiver's cached `requestID` field equals the argument,
`New(requestID)` returns the receiver's own address (reference equality) and
leaves the whole state — in particular the free list — unchanged. -/
theorem appLoggerNew_fastPath (s : AppLoggerState) (rid : String)
    (h : appLoggerRequestID s s.self = rid) :
    appLoggerNew s rid = (s, NewResult.ok s.self) := by
  unfold appLoggerRequestID at h
  unfold appLoggerNew
  rw [if_pos h]

theorem appLoggerNew_fastPath_witness :
    appLoggerRequestID ⟨"stdout", [emptyLoggerRec], 0, [LoggerVal.appLogger 0], true⟩ 0 = ""
    ∧ appLoggerNew ⟨"stdout", [emptyLoggerRec], 0, [LoggerVal.appLogger 0], true⟩ ""
      = (⟨"stdout", [emptyLoggerRec], 0, [LoggerVal.appLogger 0], true⟩, NewResult.ok 0) :=
  ⟨rfl, appLoggerNew_fastPath ⟨"stdout", [emptyLoggerRec], 0, [LoggerVal.appLogger 0], true⟩ "" rfl⟩

/-- C2: when the argument differs from the cached `requestID`, `New` pulls the
handle from the free list (or allocates a fresh one through the constructor
closure when the list is empty), stamps its `requestID` field and tag state
with the id, returns it, and the returned handle's `RequestID()` is the
argument. -/
theorem appLoggerNew_poolPath (s : AppLoggerState) (rid : String)
    (hne : appLoggerRequestID s s.self ≠ rid) :
    (∀ a rest, s.freeList = LoggerVal.appLogger a :: rest → a < s.heap.length →
        appLoggerNew s rid
          = ({ s with freeList := rest, heap := stampAt s.heap a rid }, NewResult.ok a)
        ∧ appLoggerRequestID (appLoggerNew s rid).1 a = rid)
    ∧ (s.freeList = [] → s.hasNew = true →
        appLoggerNew s rid
          = ({ s with heap := stampAt (s.heap ++ [emptyLoggerRec]) s.heap.length rid },
             NewResult.ok s.heap.length)
        ∧ appLoggerRequestID (appLoggerNew s rid).1 s.heap.length = rid) := by
  unfold appLoggerRequestID at hne
  constructor
  · intro a rest hfl hlt
    have heq : appLoggerNew s rid
        = ({ s with freeList := rest, heap := stampAt s.heap a rid }, NewResult.ok a) := by
      unfold appLoggerNew
      rw [if_neg hne, hfl]
    refine ⟨heq, ?_⟩
    rw [heq]
    unfold appLoggerRequestID stampAt
    rw [getD_set_same _ _ _ _ hlt]
  · intro hfl hnew
    have heq : appLoggerNew s rid
        = ({ s with heap := stampAt (s.heap ++ [emptyLoggerRec]) s.heap.length rid },
           NewResult.ok s.heap.length) := by
      unfold appLoggerNew
      rw [if_neg hne, hfl, if_pos hnew]
    refine ⟨heq, ?_⟩
    rw [heq]
    unfold appLoggerRequestID stampAt
    rw [getD_set_same _ _ _ _ (by simp)]

theorem appLoggerNew_poolPath_witness :
    appLoggerRequestID ⟨"stdout", [emptyLoggerRec, emptyLoggerRec], 0, [LoggerVal.appLogger 1], true⟩ 0 ≠ "x"
    ∧ appLoggerNew ⟨"stdout", [emptyLoggerRec, emptyLoggerRec], 0, [LoggerVal.appLogger 1], true⟩ "x"
      = (⟨"stdout", [emptyLoggerRec, { requestID := "x", tags := ["x"] }], 0, [], true⟩, NewResult.ok 1)
    ∧ appLoggerRequestID
        (appLoggerNew ⟨"stdout", [emptyLoggerRec, emptyLoggerRec], 0, [LoggerVal.appLogger 1], true⟩ "x").1 1
      = "x"
    ∧ appLoggerNew ⟨"stderr", [emptyLoggerRec], 0, [], true⟩ "y"
      = (⟨"stderr", [emptyLoggerRec, { requestID := "y", tags := ["y"] }], 0, [], true⟩, NewResult.ok 1) := by
  have h1 := (appLoggerNew_poolPath
      ⟨"stdout", [emptyLoggerRec, emptyLoggerRec], 0, [LoggerVal.appLogger 1], true⟩ "x"
      (by decide)).1 1 [] rfl (by decide)
  have h2 := (appLoggerNew_poolPath ⟨"stderr", [emptyLoggerRec], 0, [], true⟩ "y"
      (by decide)).2 rfl rfl
  exact ⟨by decide, h1.1, h1.2, h2.1⟩

/-- C9: for a logger built by `NewAppLogger` (constructor closure set), when
every pool value is a `*AppLogger` living on the heap, `New` resolves in the
fast path or the `*AppLogger` type-assertion branch: the final fallback
`lg.(Logger).New(requestID)` and the nil-interface assertion are unreachable,
and the returned handle's `RequestID()` is the argument. -/
theorem appLoggerNew_noFallback (s : AppLoggerState) (rid : String)
    (hnew : s.hasNew = true)
    (hpool : ∀ v ∈ s.freeList, ∃ a, v = LoggerVal.appLogger a ∧ a < s.heap.length) :
    newResultIsOk (appLoggerNew s rid).2 = true
    ∧ appLoggerRequestID (appLoggerNew s rid).1 (newResultAddr (appLoggerNew s rid).2) = rid := by
  by_cases hfast : (s.heap.getD s.self emptyLoggerRec).requestID = rid
  · have heq : appLoggerNew s rid = (s, NewResult.ok s.self) := by
      unfold appLoggerNew
      rw [if_pos hfast]
    rw [heq]
    exact ⟨rfl, hfast⟩
  · cases hfl : s.freeList with
    | nil =>
        have heq : appLoggerNew s rid
            = ({ s with heap := stampAt (s.heap ++ [emptyLoggerRec]) s.heap.length rid },
               NewResult.ok s.heap.length) := by
          unfold appLoggerNew
          rw [if_neg hfast, hfl, if_pos hnew]
        rw [heq]
        refine ⟨rfl, ?_⟩
        unfold appLoggerRequestID newResultAddr stampAt
        rw [getD_set_same _ _ _ _ (by simp)]
    | cons v rest =>
        obtain ⟨a, hv, hlt⟩ := hpool v (by rw [hfl]; exact List.mem_cons_self _ _)
        subst hv
        have heq : appLoggerNew s rid
            = ({ s with freeList := rest, heap := stampAt s.heap a rid }, NewResult.ok a) := by
          unfold appLoggerNew
          rw [if_neg hfast, hfl]
        rw [heq]
        refine ⟨rfl, ?_⟩
        unfold appLoggerRequestID newResultAddr stampAt
        rw [getD_set_same _ _ _ _ hlt]

theorem appLoggerNew_noFallback_witness :
    newResultIsOk
      (appLoggerNew ⟨"null", [emptyLoggerRec, emptyLoggerRec], 0, [LoggerVal.appLogger 1], true⟩ "req-9").2
      = true
    ∧ appLoggerRequestID
        (appLoggerNew ⟨"null", [emptyLoggerRec, emptyLoggerRec], 0, [LoggerVal.appLogger 1], true⟩ "req-9").1
        (newResultAddr
          (appLoggerNew ⟨"null", [emptyLoggerRec, emptyLoggerRec], 0, [LoggerVal.appLogger 1], true⟩ "req-9").2)
      = "req-9" :=
  appLoggerNew_noFallback ⟨"null", [emptyLoggerRec, emptyLoggerRec], 0, [LoggerVal.appLogger 1], true⟩
    "req-9" rfl
    (by
      intro v hv
      rw [List.mem_singleton] at hv
      exact ⟨1, hv, by decide⟩)

/-- C3: counterexample trace.  From the root logger of `NewAppLogger`, one
request acquires id "" (fast path returns the root, address 0, which the fast
path does not remove from the free list once it is there) and releases it;
then two acquisitions with the distinct ids "" and "x" both return address 0:
the fast path hands out the root while `pool.Get` hands out the very same
object, which the second acquisition stamps with "x", cross-assigning the
first holder's `RequestID()`. -/
theorem appLoggerNew_aliasing_cex :
    ("" ≠ "x")
    ∧ (appLoggerNew (initAppLogger "nil") "").2 = NewResult.ok 0
    ∧ (appLoggerNew
        (appLoggerReuse (appLoggerNew (initAppLogger "nil") "").1 (LoggerVal.appLogger 0)) "").2
      = NewResult.ok 0
    ∧ (appLoggerNew
        (appLoggerNew
          (appLoggerReuse (appLoggerNew (initAppLogger "nil") "").1 (LoggerVal.appLogger 0)) "").1
        "x").2
      = NewResult.ok 0
    ∧ appLoggerRequestID
        (appLoggerNew
          (appLoggerNew
            (appLoggerReuse (appLoggerNew (initAppLogger "nil") "").1 (LoggerVal.appLogger 0)) "").1
          "x").1
        0
      = "x" := by
  decide

/-- C5: `NewAppLogger` never returns an error value — the Go signature
returns only `*AppLogger`, mirrored by `ConstructResult` having no error
case.  For any resolvable sink, when the sink cannot be opened the call
aborts fatally through `log.Panicf` instead of returning, and on success it
returns the (non-nil) root logger. -/
theorem newAppLogger_fatalOrOk (canOpen : String → Bool) (pj : String → String → String)
    (output filename r : String) (hr : resolveOutput pj output filename = some r) :
    (canOpen r = true →
        newAppLogger canOpen pj output filename = ConstructResult.ok (initAppLogger r))
    ∧ (canOpen r = false →
        newAppLogger canOpen pj output filename = ConstructResult.loggerNewAbort r) := by
  unfold newAppLogger
  rw [hr]
  constructor
  · intro h
    simp [h]
  · intro h
    simp [h]

theorem newAppLogger_fatalOrOk_witness :
    resolveOutput pj0 "stdout" "app" = some "stdout"
    ∧ canOpenAll "stdout" = true
    ∧ newAppLogger canOpenAll pj0 "stdout" "app" = ConstructResult.ok (initAppLogger "stdout")
    ∧ canOpenNone "stdout" = false
    ∧ newAppLogger canOpenNone pj0 "stdout" "app" = ConstructResult.loggerNewAbort "stdout" := by
  refine ⟨by decide, rfl, ?_, rfl, ?_⟩
  · exact (newAppLogger_fatalOrOk canOpenAll pj0 "stdout" "app" "stdout" (by decide)).1 rfl
  · exact (newAppLogger_fatalOrOk canOpenNone pj0 "stdout" "app" "stdout" (by decide)).2 rfl

/-- C10: `NewAppLogger` is not total over its string inputs: with
`output = ""` — none of the recognized sink names — the expression
`output[0]` indexes an empty string and the call aborts there, before
`logger.New` is ever invoked, whatever the sink predicate says. -/
theorem newAppLogger_emptyOutput (canOpen : String → Bool) (pj : String → String → String)
    (filename : String) :
    newAppLogger canOpen pj "" filename = ConstructResult.indexOutOfRange := rfl

/-- C7 (amended): an output equal to a recognized sink name or beginning with
'/' reaches the logger constructor unchanged, and every other non-empty
output value is replaced by `path.Join(output, filename + ".log")` first; the
empty string is the one remaining value and never reaches the constructor. -/
theorem resolveOutput_cases (pj : String → String → String) (output filename : String) :
    ((output = "stdout" ∨ output = "stderr" ∨ output = "null" ∨ output = "nil") →
        resolveOutput pj output filename = some output)
    ∧ (¬ (output = "stdout" ∨ output = "stderr" ∨ output = "null" ∨ output = "nil") →
        output ≠ "" → output.front = '/' →
        resolveOutput pj output filename = some output)
    ∧ (¬ (output = "stdout" ∨ output = "stderr" ∨ output = "null" ∨ output = "nil") →
        output ≠ "" → output.front ≠ '/' →
        resolveOutput pj output filename = some (pj output (filename ++ ".log"))) := by
  refine ⟨?_, ?_, ?_⟩
  · intro h1
    unfold resolveOutput
    rw [if_pos h1]
  · intro h1 h2 h3
    unfold resolveOutput
    rw [if_neg h1, if_neg h2, if_pos h3]
  · intro h1 h2 h3
    unfold resolveOutput
    rw [if_neg h1, if_neg h2, if_neg h3]

theorem resolveOutput_cases_witness :
    resolveOutput pj0 "null" "app" = some "null"
    ∧ resolveOutput pj0 "/var/log" "app" = some "/var/log"
    ∧ resolveOutput pj0 "log" "app" = some (pj0 "log" ("app" ++ ".log")) :=
  ⟨(resolveOutput_cases pj0 "null" "app").1 (by decide),
   (resolveOutput_cases pj0 "/var/log" "app").2.1 (by decide) (by decide) (by decide),
   (resolveOutput_cases pj0 "log" "app").2.2 (by decide) (by decide) (by decide)⟩

/-- C7: counterexample to the claim as stated.  The output "" is neither a
recognized sink name nor absolute, yet it is not "replaced by the path join
of that value with the derived filename": the call aborts on `output[0]`
before the constructor is reached. -/
theorem resolveOutput_empty_cex :
    resolveOutput pj0 "" "app" = none
    ∧ resolveOutput pj0 "" "app" ≠ some (pj0 "" ("app" ++ ".log"))
    ∧ newAppLogger canOpenAll pj0 "" "app" = ConstructResult.indexOutOfRange := by
  decide

/-- C6: `NewContextLogger` — and `NewRequestLogger` through the request's
context — returns the `Logger` stored under the context logger key when one
is attached, and otherwise a freshly constructed default handle backed by the
stderr sink; given that the stderr sink opens, construction succeeds in both
cases, so the retrieval never fails. -/
theorem newContextLogger_spec (canOpen : String → Bool) (pj : String → String → String)
    (ctxVal : Option CtxValue) (r : HttpRequest) (hs : canOpen "stderr" = true) :
    (∀ v, ctxVal = some (CtxValue.isLogger v) →
        newContextLogger canOpen pj ctxVal = ConstructResult.ok (CtxLogger.attached v))
    ∧ ((∀ v, ctxVal ≠ some (CtxValue.isLogger v)) →
        newContextLogger canOpen pj ctxVal
          = ConstructResult.ok (CtxLogger.fresh (initAppLogger "stderr")))
    ∧ newRequestLogger canOpen pj r = newContextLogger canOpen pj r.ctxVal
    ∧ constructIsOk (newContextLogger canOpen pj ctxVal) = true := by
  have hstderr : newAppLogger canOpen pj "stderr" ""
      = ConstructResult.ok (initAppLogger "stderr") := by
    unfold newAppLogger
    have hres : resolveOutput pj "stderr" "" = some "stderr" := by
      unfold resolveOutput
      rw [if_pos (Or.inr (Or.inl rfl))]
    rw [hres]
    simp [hs]
  refine ⟨?_, ?_, rfl, ?_⟩
  · intro v hv
    rw [hv]
    rfl
  · intro hno
    cases ctxVal with
    | none =>
        unfold newContextLogger
        rw [hstderr]
    | some cv =>
        cases cv with
        | isLogger v => exact absurd rfl (hno v)
        | notLogger =>
            unfold newContextLogger
            rw [hstderr]
  · cases ctxVal with
    | none =>
        unfold newContextLogger
        rw [hstderr]
        rfl
    | some cv =>
        cases cv with
        | isLogger v => rfl
        | notLogger =>
            unfold newContextLogger
            rw [hstderr]
            rfl

theorem newContextLogger_spec_witness :
    canOpenAll "stderr" = true
    ∧ newContextLogger canOpenAll pj0 (some (CtxValue.isLogger (LoggerVal.appLogger 3)))
      = ConstructResult.ok (CtxLogger.attached (LoggerVal.appLogger 3))
    ∧ newContextLogger canOpenAll pj0 none
      = ConstructResult.ok (CtxLogger.fresh (initAppLogger "stderr"))
    ∧ newRequestLogger canOpenAll pj0 ⟨none⟩ = newContextLogger canOpenAll pj0 none
    ∧ constructIsOk (newContextLogger canOpenAll pj0 none) = true := by
  refine ⟨rfl, ?_, ?_, ?_, ?_⟩
  · exact (newContextLogger_spec canOpenAll pj0
      (some (CtxValue.isLogger (LoggerVal.appLogger 3))) ⟨none⟩ rfl).1 (LoggerVal.appLogger 3) rfl
  · exact (newContextLogger_spec canOpenAll pj0 none ⟨none⟩ rfl).2.1
      (fun v h => Option.noConfusion h)
  · exact (newContextLogger_spec canOpenAll pj0 none ⟨none⟩ rfl).2.2.1
  · exact (newContextLogger_spec canOpenAll pj0 none ⟨none⟩ rfl).2.2.2

theorem runStage_allTrue {σ : Type} (hs : List (NamedHook σ))
    (hyp : ∀ g ∈ hs, ∀ t, (g.Apply t).2 = true) (s : σ) :
    runStage hs s = (stageFold hs s, true) := by
  induction hs generalizing s with
  | nil => rfl
  | cons g gs ih =>
      have hg := hyp g (List.mem_cons_self _ _) s
      simp only [runStage, stageFold, hg, if_true]
      exact ih (fun g' hg' => hyp g' (List.mem_cons_of_mem _ hg')) ((g.Apply s).1)

theorem runStage_stopsAtFalse {σ : Type} (pre post : List (NamedHook σ)) (h : NamedHook σ)
    (hpre : ∀ g ∈ pre, ∀ t, (g.Apply t).2 = true)
    (hh : ∀ t, (h.Apply t).2 = false) (s : σ) :
    runStage (pre ++ h :: post) s = ((h.Apply (stageFold pre s)).1, false) := by
  induction pre generalizing s with
  | nil =>
      simp only [List.nil_append, runStage, stageFold, hh s]
      rfl
  | cons g gs ih =>
      have hg := hpre g (List.mem_cons_self _ _) s
      simp only [List.cons_append, runStage, stageFold, hg, if_true]
      exact ih (fun g' hg' => hpre g' (List.mem_cons_of_mem _ hg')) ((g.Apply s).1)

/-- C4: hook-stage execution runs the hooks in registration order; at the
first hook returning false it stops and reports false, and the outcome does
not depend on the hooks registered after that one (they are never executed);
when every hook returns true, or the stage is empty, it reports true.
(The runner of `pkgs/hooks` is modelled from the spec; its source is not in
this tree.) -/
theorem runStage_spec {σ : Type} (pre post : List (NamedHook σ)) (h : NamedHook σ) (s : σ)
    (hpre : ∀ g ∈ pre, ∀ t, (g.Apply t).2 = true)
    (hh : ∀ t, (h.Apply t).2 = false) :
    runStage (pre ++ h :: post) s = ((h.Apply (stageFold pre s)).1, false)
    ∧ (∀ hs : List (NamedHook σ), (∀ g ∈ hs, ∀ t, (g.Apply t).2 = true) →
        runStage hs s = (stageFold hs s, true))
    ∧ runStage ([] : List (NamedHook σ)) s = (s, true) :=
  ⟨runStage_stopsAtFalse pre post h hpre hh s,
   fun hs hyp => runStage_allTrue hs hyp s,
   rfl⟩

theorem runStage_spec_witness :
    runStage [tHookTrue "h1", tHookFalse "h2", tHookTrue "h3"] ([] : List String)
      = (["h1", "h2"], false)
    ∧ runStage [tHookTrue "h1", tHookTrue "h2"] ([] : List String) = (["h1", "h2"], true)
    ∧ runStage ([] : List (NamedHook (List String))) ([] : List String) = ([], true) := by
  have hw := runStage_spec [tHookTrue "h1"] [tHookTrue "h3"] (tHookFalse "h2") ([] : List String)
      (by
        intro g hg t
        rw [List.mem_singleton] at hg
        rw [hg]
        rfl)
      (fun t => rfl)
  refine ⟨hw.1, ?_, hw.2.2⟩
  exact hw.2.1 [tHookTrue "h1", tHookTrue "h2"]
    (by
      intro g hg t
      rcases List.mem_cons.mp hg with h1 | h1
      · rw [h1]
        rfl
      · rw [List.mem_singleton] at h1
        rw [h1]
        rfl)

theorem componentTypeValid_iff (ct : Int) :
    componentTypeValid ct = true
      ↔ (ct = ComTypeController ∨ ct = ComTypeMiddleware ∨ ct = ComTypeModel) := by
  unfold componentTypeValid comTypeLowerBound comTypeUpperBound
  unfold ComTypeController ComTypeMiddleware ComTypeModel
  simp only [Bool.and_eq_true, decide_eq_true_eq]
  omega

theorem newComponent_valid_noTypeErr (env : ComponentEnv) (com : Int) (name : String)
    (hv : componentTypeValid com = true) :
    (newComponent env com name).result ≠ some CompErr.errComponentType := by
  unfold newComponent
  rw [if_neg (by simp [hv])]
  rcases henv : env.getwd with e | pwd
  · simp
  · dsimp only
    split
    · simp
    · split
      · simp
      · split
        · simp
        · split
          · simp
          · split <;> simp

/-- C8: `newComponent` returns `ErrComponentType` exactly when the component
type is not strictly between the enum bounds — not one of controller,
middleware, model — and returns `ErrInvalidRoot` when the resolved component
root does not contain "/gogo/"; both are ordinary returned errors produced
before any file is opened or written (`written = []`). -/
theorem newComponent_errors (env : ComponentEnv) (com : Int) (name : String) :
    ((newComponent env com name).result = some CompErr.errComponentType
      ↔ ¬ (com = ComTypeController ∨ com = ComTypeMiddleware ∨ com = ComTypeModel))
    ∧ (componentTypeValid com = false →
        newComponent env com name = { written := [], result := some CompErr.errComponentType })
    ∧ (∀ pwd, componentTypeValid com = true → env.getwd = Except.ok pwd →
        goContains (componentTypeRoot env.pathClean com pwd) "/gogo/" = false →
        newComponent env com name = { written := [], result := some CompErr.errInvalidRoot }) := by
  have hinvalid : componentTypeValid com = false →
      newComponent env com name = { written := [], result := some CompErr.errComponentType } := by
    intro h
    unfold newComponent
    rw [if_pos h]
  refine ⟨⟨?_, ?_⟩, hinvalid, ?_⟩
  · intro hres hyes
    exact newComponent_valid_noTypeErr env com name ((componentTypeValid_iff com).mpr hyes) hres
  · intro hno
    have hv : componentTypeValid com = false := by
      cases hcv : componentTypeValid com with
      | false => rfl
      | true => exact absurd ((componentTypeValid_iff com).mp hcv) hno
    rw [hinvalid hv]
  · intro pwd hv hw hroot
    unfold newComponent
    rw [if_neg (by simp [hv]), hw]
    dsimp only
    rw [if_pos hroot]

theorem newComponent_errors_witness :
    (newComponent envInProject 5 "user").result = some CompErr.errComponentType
    ∧ newComponent envOutsideProject ComTypeMiddleware "user"
      = { written := [], result := some CompErr.errInvalidRoot } := by
  constructor
  · exact (newComponent_errors envInProject 5 "user").1.mpr (by decide)
  · exact (newComponent_errors envOutsideProject ComTypeMiddleware "user").2.2 ""
      (by decide) rfl (by decide)
